import Mathlib

/-!
Shallow embedding of the KeywordGenius SEO keyword-research client.

Embedded sources:
- types.ts: KeywordEntry, GenerationStats.
- App.tsx: the stats aggregator (useMemo), the submit handler
  handleGenerate, and the summary-card rendering over the stats object.
- components/KeywordTable.tsx: handleSort, filteredData, sortedData,
  downloadCSV.
- services/geminiService.ts: generateKeywords.

Modelling conventions: JavaScript's float arithmetic on the integer-valued
priority scores is idealized as exact integer/rational arithmetic; the
string builtins trim and toLowerCase are modelled as executable functions
on the character list; a string-keyed
Record built by repeated increments is an association list in insertion
order (Object.entries yields insertion order for non-integer-like keys,
and the category names here are non-numeric enum labels); thrown
exceptions are Except.error; the in-place Array.prototype.sort the render
applies to the memoized stats arrays is explicit state passing; the
platform sort (stable per the ECMAScript spec) is a stable sort by the
comparator, namely insertion sort on the comparator-at-most-zero relation.
-/

/-- JavaScript String.prototype.trim: strip leading and trailing
whitespace. -/
def jsTrim (s : String) : String :=
  String.mk (((s.data.dropWhile Char.isWhitespace).reverse.dropWhile
    Char.isWhitespace).reverse)

/-- JavaScript String.prototype.toLowerCase, characterwise. -/
def jsToLower (s : String) : String :=
  String.mk (s.data.map Char.toLower)

/-- KeywordEntry from types.ts.  The fields keywordType and searchIntent
are declared KeywordType|string resp. SearchIntent|string, i.e. arbitrary
strings at the type level.  The priority scores the service is asked for
are integers from 0 to 100, modelled as ℤ. -/
structure KeywordEntry where
  keyword : String
  keywordType : String
  searchIntent : String
  priorityScore : ℤ
  importance : String
  deriving DecidableEq, Repr

/-- One element of a distribution, mirroring the objects produced by
Object.entries(...).map of the aggregator: a category name with its
count. -/
structure NameValue where
  name : String
  value : ℕ
  deriving DecidableEq, Repr

/-- GenerationStats from types.ts. -/
structure GenerationStats where
  totalKeywords : ℕ
  avgPriority : ℤ
  intentDistribution : List NameValue
  typeDistribution : List NameValue
  deriving DecidableEq, Repr

/-- One step counts[k] = (counts[k] || 0) + 1 on a string-keyed record,
modelled on the insertion-ordered association list: an existing key is
incremented in place, an unseen key is appended at the end. -/
def bump : List NameValue → String → List NameValue
  | [], n => [⟨n, 1⟩]
  | e :: rest, n =>
      if e.name = n then ⟨e.name, e.value + 1⟩ :: rest
      else e :: bump rest n

/-- The record of counts accumulated by the aggregator's forEach over a
list of category names, read back through Object.entries. -/
def distrib (names : List String) : List NameValue :=
  names.foldl bump []

/-- Math.round of the exact quotient num/count for a positive count,
computed with integer floor division: Math.round x = ⌊x + 1/2⌋, and
⌊num/count + 1/2⌋ = ⌊(2*num + count) / (2*count)⌋ (proved below as
mathRound_eq_floor_half). -/
def mathRound (num : ℤ) (count : ℕ) : ℤ :=
  (2 * num + count) / (2 * (count : ℤ))

/-- The stats useMemo of App.tsx: null for the empty list, otherwise the
total count, Math.round of the mean priorityScore, and the two count
distributions. -/
def stats (keywords : List KeywordEntry) : Option GenerationStats :=
  if keywords.length = 0 then none
  else some
    { totalKeywords := keywords.length
      avgPriority :=
        mathRound (keywords.map KeywordEntry.priorityScore).sum keywords.length
      intentDistribution := distrib (keywords.map KeywordEntry.searchIntent)
      typeDistribution := distrib (keywords.map KeywordEntry.keywordType) }

/-- Sum of the counts of a distribution. -/
def valueSum (d : List NameValue) : ℕ :=
  (d.map NameValue.value).sum

/-- Specification-side definition of first-seen insertion order: the
distinct category names of a list, each at the position of its first
occurrence. -/
def firstSeenOrder (names : List String) : List String :=
  names.foldl (fun acc n => if n ∈ acc then acc else acc ++ [n]) []

/-- The sortable columns of the keyword table (type SortField = keyof
KeywordEntry in KeywordTable.tsx). -/
inductive SortField where
  | keyword
  | keywordType
  | searchIntent
  | priorityScore
  | importance
  deriving DecidableEq, Repr

/-- Sort direction of the keyword table. -/
inductive SortDirection where
  | asc
  | desc
  deriving DecidableEq, Repr

/-- handleSort of KeywordTable.tsx as a function on the (sortField,
sortDirection) state: clicking the active field flips the direction,
clicking another field selects it and resets the direction to
descending. -/
def handleSort (field : SortField) (sortField : SortField)
    (sortDirection : SortDirection) : SortField × SortDirection :=
  if field = sortField then
    (sortField, if sortDirection = SortDirection.asc then SortDirection.desc
      else SortDirection.asc)
  else
    (field, SortDirection.desc)

/-- filteredData of KeywordTable.tsx: keep the items whose lower-cased
keyword contains the lower-cased search term as a substring, and whose
searchIntent equals the intent filter unless that filter is "All". -/
def filteredData (data : List KeywordEntry) (searchTerm : String)
    (filterIntent : String) : List KeywordEntry :=
  data.filter fun item =>
    (decide ((jsToLower searchTerm).data <:+: (jsToLower item.keyword).data)) &&
    (filterIntent == "All" || item.searchIntent == filterIntent)

/-- String(aValue) of a field value, used by the comparator's string
branch.  For priorityScore this is JS number stringification; that case is
unreachable in the comparator because priorityScore takes the numeric
branch. -/
def fieldString (f : SortField) (e : KeywordEntry) : String :=
  match f with
  | SortField.keyword => e.keyword
  | SortField.keywordType => e.keywordType
  | SortField.searchIntent => e.searchIntent
  | SortField.priorityScore => toString e.priorityScore
  | SortField.importance => e.importance

/-- The comparator of sortedData in KeywordTable.tsx.  priorityScore is
the only numeric field, so it takes the arithmetic-difference branch; the
other fields are strings and are compared by lower-cased string order
returning -1, 1 or 0; the direction flips the returned sign. -/
def cmpEntries (sortField : SortField) (sortDirection : SortDirection)
    (a b : KeywordEntry) : ℤ :=
  match sortField with
  | SortField.priorityScore =>
      if sortDirection = SortDirection.asc then a.priorityScore - b.priorityScore
      else b.priorityScore - a.priorityScore
  | f =>
      let aString := jsToLower (fieldString f a)
      let bString := jsToLower (fieldString f b)
      if aString < bString then
        (if sortDirection = SortDirection.asc then -1 else 1)
      else if bString < aString then
        (if sortDirection = SortDirection.asc then 1 else -1)
      else 0

/-- The relation "the comparator does not place b strictly before a",
i.e. comparator value at most zero; sorting by the comparator is sorting
by this relation. -/
def entryLe (sortField : SortField) (sortDirection : SortDirection)
    (a b : KeywordEntry) : Prop :=
  cmpEntries sortField sortDirection a b ≤ 0

instance (f : SortField) (d : SortDirection) : DecidableRel (entryLe f d) :=
  fun a b => inferInstanceAs (Decidable (cmpEntries f d a b ≤ 0))

/-- sortedData of KeywordTable.tsx: the filtered rows sorted by the
comparator (a stable sort, modelled by insertion sort on entryLe). -/
def sortedData (data : List KeywordEntry) (searchTerm : String)
    (filterIntent : String) (sortField : SortField)
    (sortDirection : SortDirection) : List KeywordEntry :=
  List.insertionSort (entryLe sortField sortDirection)
    (filteredData data searchTerm filterIntent)

/-- Array.prototype.join with a separator. -/
def joinWith (sep : String) : List String → String
  | [] => ""
  | [x] => x
  | x :: y :: xs => x ++ sep ++ joinWith sep (y :: xs)

/-- The header cells of the exported CSV. -/
def csvHeaders : List String :=
  ["Keyword", "Type", "Intent", "Score", "Importance"]

/-- One CSV data line of downloadCSV: keyword, type, intent and importance
wrapped verbatim in double quotes (no escaping of embedded quotes), the
score unquoted. -/
def csvRow (row : KeywordEntry) : String :=
  "\"" ++ row.keyword ++ "\",\"" ++ row.keywordType ++ "\",\"" ++
    row.searchIntent ++ "\"," ++ toString row.priorityScore ++ ",\"" ++
    row.importance ++ "\""

/-- The csvContent string built by downloadCSV: the joined header line
followed by one line per currently visible (filtered and sorted) row,
joined by newlines. -/
def csvContent (rows : List KeywordEntry) : String :=
  joinWith "\n" (joinWith "," csvHeaders :: rows.map csvRow)

/-- downloadCSV of KeywordTable.tsx, as the text of the file it downloads:
it serializes sortedData, not the raw data prop. -/
def downloadCSV (data : List KeywordEntry) (searchTerm : String)
    (filterIntent : String) (sortField : SortField)
    (sortDirection : SortDirection) : String :=
  csvContent (sortedData data searchTerm filterIntent sortField sortDirection)

/-- The part of the external service response that generateKeywords reads:
the optional text payload. -/
structure GenerateContentResponse where
  text : Option String

/-- generateKeywords of services/geminiService.ts, abstracted over the
service response and over JSON.parse (the external parser, which either
yields a keyword list or throws).  An absent payload, and likewise the
empty string (falsy in the source's if (!text) check), throws the
no-data error; the outer try/catch only logs and rethrows. -/
def generateKeywords (response : GenerateContentResponse)
    (parseJson : String → Except String (List KeywordEntry)) :
    Except String (List KeywordEntry) :=
  match response.text with
  | none => Except.error "No data returned from Gemini."
  | some text =>
      if text = "" then Except.error "No data returned from Gemini."
      else parseJson text

/-- The state of App.tsx's five useState hooks. -/
structure AppState where
  seedKeyword : String
  keywords : List KeywordEntry
  loading : Bool
  error : Option String
  hasSearched : Bool
  deriving DecidableEq, Repr

/-- The synchronous prefix of handleGenerate in App.tsx, up to the await:
return unchanged when the trimmed seed is empty, otherwise set loading,
clear the error and the keyword list, and mark hasSearched. -/
def submitStart (s : AppState) : AppState :=
  if jsTrim s.seedKeyword = "" then s
  else { s with loading := true, error := none, keywords := [],
                hasSearched := true }

/-- The continuation of handleGenerate after the generation call resolves:
on success store the entries; on failure store err.message, falling back
to the generic message when the message is empty (falsy); finally clear
loading. -/
def submitResolve (s : AppState)
    (result : Except String (List KeywordEntry)) : AppState :=
  match result with
  | Except.ok data => { s with keywords := data, loading := false }
  | Except.error msg =>
      { s with
        error := some (if msg = "" then
          "Failed to generate keywords. Please try again." else msg)
        loading := false }

/-- handleGenerate of App.tsx, run to completion against a given outcome
of the generation call. -/
def handleGenerate (s : AppState)
    (result : Except String (List KeywordEntry)) : AppState :=
  if jsTrim s.seedKeyword = "" then s
  else submitResolve (submitStart s) result

/-- The descending-count relation the summary cards sort by: the
comparator (a, b) => b.value - a.value is at most zero exactly when
b.value ≤ a.value. -/
def byValueDesc (a b : NameValue) : Prop :=
  b.value ≤ a.value

instance : DecidableRel byValueDesc :=
  fun a b => inferInstanceAs (Decidable (b.value ≤ a.value))

instance : IsTotal NameValue byValueDesc :=
  ⟨fun a b => Nat.le_total b.value a.value⟩

instance : IsTrans NameValue byValueDesc :=
  ⟨fun _ _ _ h1 h2 => Nat.le_trans h2 h1⟩

/-- The in-place Array.prototype.sort((a, b) => b.value - a.value) the
render applies to a stats distribution (stable, modelled by insertion
sort). -/
def sortByValueDesc (d : List NameValue) : List NameValue :=
  List.insertionSort byValueDesc d

/-- The render of the results section of App.tsx, restricted to its data
flow: the Top Intent card text, the Dominant Type card text, and the stats
object as the Dashboard receives it — with both distribution arrays
mutated in place into descending-count order by the card expressions. -/
def renderSummary (st : GenerationStats) :
    String × String × GenerationStats :=
  let intentSorted := sortByValueDesc st.intentDistribution
  let typeSorted := sortByValueDesc st.typeDistribution
  (((intentSorted.head?).map NameValue.name).getD "N/A",
   ((typeSorted.head?).map NameValue.name).getD "N/A",
   { st with intentDistribution := intentSorted,
             typeDistribution := typeSorted })

/-- Auxiliary: bumping a key adds exactly one to the total count of a
record. -/
theorem valueSum_bump (acc : List NameValue) (n : String) :
    valueSum (bump acc n) = valueSum acc + 1 := by
  induction acc with
  | nil => simp [bump, valueSum]
  | cons e rest ih =>
      by_cases h : e.name = n <;>
        simp [bump, h, valueSum, List.map_cons, List.sum_cons] at ih ⊢ <;>
        omega

/-- Auxiliary: folding bump over a name list adds the list's length to the
total count. -/
theorem valueSum_foldl (names : List String) (acc : List NameValue) :
    valueSum (names.foldl bump acc) = valueSum acc + names.length := by
  induction names generalizing acc with
  | nil => simp
  | cons n rest ih =>
      simp only [List.foldl_cons, ih, valueSum_bump, List.length_cons]
      omega

/-- Auxiliary: the counts of a distribution sum to the number of counted
names. -/
theorem valueSum_distrib (names : List String) :
    valueSum (distrib names) = names.length := by
  unfold distrib
  rw [valueSum_foldl]
  simp [valueSum]

/-- Auxiliary: for a positive count, the integer-division implementation
of Math.round computes the half-up rounding of the exact mean. -/
theorem mathRound_eq_floor_half (num : ℤ) (count : ℕ) (h : count ≠ 0) :
    mathRound num count = ⌊(num : ℚ) / (count : ℚ) + 1 / 2⌋ := by
  unfold mathRound
  have h2 : ((2 * count : ℕ) : ℤ) = 2 * (count : ℤ) := by push_cast; ring
  rw [← h2, ← Rat.floor_intCast_div_natCast (2 * num + count) (2 * count)]
  congr 1
  have hc : (count : ℚ) ≠ 0 := Nat.cast_ne_zero.mpr h
  push_cast
  field_simp
  ring

/-- Claim C1: for every non-empty keyword list, the aggregator's
avgPriority equals round(sum(priorityScore) / count) with standard half-up
rounding ⌊mean + 1/2⌋, and the counts of intentDistribution and of
typeDistribution each sum to totalKeywords. -/
theorem stats_avgPriority_and_distribution_sums (l : List KeywordEntry)
    (h : l ≠ []) :
    ∃ st, stats l = some st ∧
      st.avgPriority =
        ⌊((l.map KeywordEntry.priorityScore).sum : ℚ) / (l.length : ℚ) + 1 / 2⌋ ∧
      st.avgPriority =
        round (((l.map KeywordEntry.priorityScore).sum : ℚ) / (l.length : ℚ)) ∧
      valueSum st.intentDistribution = st.totalKeywords ∧
      valueSum st.typeDistribution = st.totalKeywords := by
  have hlen : l.length ≠ 0 := by simpa [List.length_eq_zero] using h
  simp only [stats, if_neg hlen]
  refine ⟨_, rfl, ?_, ?_, ?_, ?_⟩
  · exact mathRound_eq_floor_half _ _ hlen
  · rw [round_eq]
    exact mathRound_eq_floor_half _ _ hlen
  · simp [valueSum_distrib]
  · simp [valueSum_distrib]

/-- The worked list of the spec's end-to-end example. -/
def exEntries : List KeywordEntry :=
  [⟨"buy coffee", "Commercial", "Transactional", 90, "high intent"⟩,
   ⟨"what is coffee", "Question", "Informational", 40, "awareness"⟩]

/-- Witness for claim C1 at the spec's two-entry example list. -/
theorem stats_avgPriority_and_distribution_sums_witness :
    ∃ st, stats exEntries = some st ∧
      st.avgPriority =
        ⌊((exEntries.map KeywordEntry.priorityScore).sum : ℚ) /
          (exEntries.length : ℚ) + 1 / 2⌋ ∧
      st.avgPriority =
        round (((exEntries.map KeywordEntry.priorityScore).sum : ℚ) /
          (exEntries.length : ℚ)) ∧
      valueSum st.intentDistribution = st.totalKeywords ∧
      valueSum st.typeDistribution = st.totalKeywords :=
  stats_avgPriority_and_distribution_sums exEntries (by decide)

/-- Claim C6: the aggregator yields no statistics for the empty keyword
list (null in the source, none here), rather than a zero-valued default
GenerationStats. -/
theorem stats_nil_eq_none : stats [] = none := rfl

/-- Auxiliary: bumping a key either leaves the key sequence unchanged (key
already present) or appends the key at the end. -/
theorem names_bump (acc : List NameValue) (n : String) :
    (bump acc n).map NameValue.name =
      (if n ∈ acc.map NameValue.name then acc.map NameValue.name
       else acc.map NameValue.name ++ [n]) := by
  induction acc with
  | nil => simp [bump]
  | cons e rest ih =>
      by_cases h : e.name = n
      · simp [bump, h]
      · simp only [bump, if_neg h, List.map_cons, ih, List.mem_cons]
        by_cases h2 : n ∈ rest.map NameValue.name
        · simp [h2, Ne.symm h]
        · simp [h2, Ne.symm h]

/-- Auxiliary: the key sequence of the accumulated count record is the
fold that appends each unseen name. -/
theorem names_foldl (names : List String) (acc : List NameValue) :
    (names.foldl bump acc).map NameValue.name =
      names.foldl (fun a n => if n ∈ a then a else a ++ [n])
        (acc.map NameValue.name) := by
  induction names generalizing acc with
  | nil => rfl
  | cons n rest ih =>
      simp only [List.foldl_cons]
      rw [ih, names_bump]

/-- Auxiliary: the key sequence of a distribution is the first-seen
insertion order of the counted names. -/
theorem names_distrib (names : List String) :
    (distrib names).map NameValue.name = firstSeenOrder names := by
  unfold distrib firstSeenOrder
  rw [names_foldl]
  rfl

/-- Claim C8: the aggregator lists the categories of intentDistribution
and of typeDistribution in first-seen insertion order over the input
entries; it does not sort them. -/
theorem stats_distribution_firstSeenOrder (l : List KeywordEntry)
    (st : GenerationStats) (h : stats l = some st) :
    st.intentDistribution.map NameValue.name =
      firstSeenOrder (l.map KeywordEntry.searchIntent) ∧
    st.typeDistribution.map NameValue.name =
      firstSeenOrder (l.map KeywordEntry.keywordType) := by
  unfold stats at h
  by_cases hlen : l.length = 0
  · rw [if_pos hlen] at h
    exact absurd h (by simp)
  · rw [if_neg hlen] at h
    injection h with h2
    subst h2
    exact ⟨names_distrib _, names_distrib _⟩

/-- A mixed three-entry list whose first-seen intent order (Commercial
before Informational) repeats the first category at the end. -/
def mixedEntries : List KeywordEntry :=
  [⟨"best crm", "Commercial", "Commercial", 80, "buyer"⟩,
   ⟨"what is crm", "Question", "Informational", 40, "awareness"⟩,
   ⟨"crm pricing", "Long Tail", "Commercial", 70, "high intent"⟩]

/-- The aggregator's output on mixedEntries. -/
def mixedStats : GenerationStats :=
  { totalKeywords := 3
    avgPriority := 63
    intentDistribution := [⟨"Commercial", 2⟩, ⟨"Informational", 1⟩]
    typeDistribution :=
      [⟨"Commercial", 1⟩, ⟨"Question", 1⟩, ⟨"Long Tail", 1⟩] }

/-- Witness for claim C8 at the mixed three-entry list. -/
theorem stats_distribution_firstSeenOrder_witness :
    mixedStats.intentDistribution.map NameValue.name =
      firstSeenOrder (mixedEntries.map KeywordEntry.searchIntent) ∧
    mixedStats.typeDistribution.map NameValue.name =
      firstSeenOrder (mixedEntries.map KeywordEntry.keywordType) :=
  stats_distribution_firstSeenOrder mixedEntries mixedStats (by decide)

/-- Claim C2: the filtered view keeps exactly the entries of the data list
whose lower-cased keyword contains the lower-cased search term as a
substring and whose searchIntent equals the intent filter (the intent
check being skipped for the filter "All"); in particular, with the filter
"Commercial" every kept entry has searchIntent "Commercial". -/
theorem filteredData_mem_iff (data : List KeywordEntry)
    (searchTerm filterIntent : String) (e : KeywordEntry) :
    (e ∈ filteredData data searchTerm filterIntent ↔
      e ∈ data ∧
      (jsToLower searchTerm).data <:+: (jsToLower e.keyword).data ∧
      (filterIntent = "All" ∨ e.searchIntent = filterIntent)) ∧
    (filterIntent = "Commercial" →
      e ∈ filteredData data searchTerm filterIntent →
      e.searchIntent = "Commercial") := by
  have hiff : e ∈ filteredData data searchTerm filterIntent ↔
      e ∈ data ∧
      (jsToLower searchTerm).data <:+: (jsToLower e.keyword).data ∧
      (filterIntent = "All" ∨ e.searchIntent = filterIntent) := by
    simp [filteredData, List.mem_filter, and_assoc]
  refine ⟨hiff, fun hc hm => ?_⟩
  rcases (hiff.mp hm).2.2 with h | h
  · rw [hc] at h
    exact absurd h (by decide)
  · exact h.trans hc

/-- Witness for claim C2: on the mixed list with intent filter
"Commercial", the kept first entry indeed has searchIntent
"Commercial". -/
theorem filteredData_mem_iff_witness :
    (⟨"best crm", "Commercial", "Commercial", 80,
      "buyer"⟩ : KeywordEntry).searchIntent = "Commercial" :=
  (filteredData_mem_iff mixedEntries "" "Commercial"
    ⟨"best crm", "Commercial", "Commercial", 80, "buyer"⟩).2 rfl (by decide)

/-- Claim C7: clicking the header of the active sort field toggles the
direction and keeps the field; clicking another header selects that field
and resets the direction to descending. -/
theorem handleSort_toggle_or_reset (field sf : SortField)
    (d : SortDirection) :
    (field = sf →
      handleSort field sf SortDirection.asc = (sf, SortDirection.desc) ∧
      handleSort field sf SortDirection.desc = (sf, SortDirection.asc)) ∧
    (field ≠ sf → handleSort field sf d = (field, SortDirection.desc)) := by
  constructor
  · intro h
    subst h
    simp [handleSort]
  · intro h
    simp [handleSort, h]

/-- Witness for claim C7: a repeated click on priorityScore flips desc to
asc, and a click on keyword while priorityScore is active resets to
(keyword, desc). -/
theorem handleSort_toggle_or_reset_witness :
    handleSort SortField.priorityScore SortField.priorityScore
        SortDirection.desc = (SortField.priorityScore, SortDirection.asc) ∧
    handleSort SortField.keyword SortField.priorityScore
        SortDirection.asc = (SortField.keyword, SortDirection.desc) :=
  ⟨((handleSort_toggle_or_reset SortField.priorityScore
      SortField.priorityScore SortDirection.asc).1 rfl).2,
   (handleSort_toggle_or_reset SortField.keyword SortField.priorityScore
      SortDirection.asc).2 (by decide)⟩

/-- Claim C9: a submit with an empty trimmed seed changes no state (in
particular it does not enter loading); a submit with a non-empty trimmed
seed immediately clears the keyword list and the error and enters loading,
and only then is the generation outcome applied. -/
theorem handleGenerate_guard_and_clear (s : AppState)
    (result : Except String (List KeywordEntry)) :
    (jsTrim s.seedKeyword = "" →
      submitStart s = s ∧ handleGenerate s result = s) ∧
    (jsTrim s.seedKeyword ≠ "" →
      (submitStart s).keywords = [] ∧
      (submitStart s).error = none ∧
      (submitStart s).loading = true ∧
      handleGenerate s result = submitResolve (submitStart s) result) := by
  constructor
  · intro h
    exact ⟨by simp [submitStart, h], by simp [handleGenerate, h]⟩
  · intro h
    refine ⟨?_, ?_, ?_, ?_⟩ <;> simp [submitStart, handleGenerate, h]

/-- A state with an only-whitespace seed, stale keywords and a stale
error. -/
def s0 : AppState :=
  { seedKeyword := "  ", keywords := exEntries, loading := false,
    error := some "old error", hasSearched := true }

/-- A state with a usable seed, stale keywords and a stale error. -/
def s1 : AppState :=
  { seedKeyword := "crm software", keywords := exEntries, loading := false,
    error := some "old error", hasSearched := true }

/-- Witness for claim C9 at the two concrete states. -/
theorem handleGenerate_guard_and_clear_witness :
    (submitStart s0 = s0 ∧ handleGenerate s0 (Except.ok []) = s0) ∧
    ((submitStart s1).keywords = [] ∧
      (submitStart s1).error = none ∧
      (submitStart s1).loading = true ∧
      handleGenerate s1 (Except.ok []) =
        submitResolve (submitStart s1) (Except.ok [])) :=
  ⟨(handleGenerate_guard_and_clear s0 (Except.ok [])).1 (by decide),
   (handleGenerate_guard_and_clear s1 (Except.ok [])).2 (by decide)⟩

/-- Claim C5: when the external service returns no text payload the
generation client fails with the no-data error, and the application shell
turns any such failure into an error state with a non-empty user-visible
message while the keyword list stays empty; an error carrying an empty
message falls back to the generic message. -/
theorem generateKeywords_empty_payload_error (s : AppState)
    (resp : GenerateContentResponse)
    (parseJson : String → Except String (List KeywordEntry))
    (hseed : jsTrim s.seedKeyword ≠ "")
    (hresp : resp.text = none ∨ resp.text = some "") :
    generateKeywords resp parseJson =
      Except.error "No data returned from Gemini." ∧
    (∃ m, (handleGenerate s (generateKeywords resp parseJson)).error =
        some m ∧ m ≠ "") ∧
    (handleGenerate s (generateKeywords resp parseJson)).keywords = [] ∧
    (∀ msg, msg = "" →
      (handleGenerate s (Except.error msg)).error =
        some "Failed to generate keywords. Please try again.") := by
  have hmsg : ("No data returned from Gemini." : String) ≠ "" := by decide
  have hge : generateKeywords resp parseJson =
      Except.error "No data returned from Gemini." := by
    rcases hresp with h | h <;> simp [generateKeywords, h]
  refine ⟨hge, ⟨"No data returned from Gemini.", ?_, hmsg⟩, ?_, ?_⟩
  · rw [hge]
    simp [handleGenerate, hseed, submitResolve, submitStart, hmsg]
  · rw [hge]
    simp [handleGenerate, hseed, submitResolve, submitStart]
  · intro msg h0
    subst h0
    simp [handleGenerate, hseed, submitResolve, submitStart]

/-- A service response with an absent text payload. -/
def respNone : GenerateContentResponse := { text := none }

/-- Witness for claim C5 at the usable-seed state and the empty-payload
response. -/
theorem generateKeywords_empty_payload_error_witness :
    generateKeywords respNone (fun _ => Except.ok []) =
      Except.error "No data returned from Gemini." ∧
    (∃ m, (handleGenerate s1
        (generateKeywords respNone (fun _ => Except.ok []))).error =
        some m ∧ m ≠ "") ∧
    (handleGenerate s1
      (generateKeywords respNone (fun _ => Except.ok []))).keywords = [] ∧
    (∀ msg, msg = "" →
      (handleGenerate s1 (Except.error msg)).error =
        some "Failed to generate keywords. Please try again.") :=
  generateKeywords_empty_payload_error s1 respNone (fun _ => Except.ok [])
    (by decide) (Or.inl rfl)

/-- Claim C4: the CSV export serializes the currently filtered and sorted
rows (not the raw list), and when exactly one row is visible the output is
exactly the fixed header line Keyword,Type,Intent,Score,Importance
followed by one data line whose string fields are double-quoted verbatim
(no escaping of embedded quotes) and whose score is unquoted. -/
theorem downloadCSV_single_row (data : List KeywordEntry)
    (searchTerm filterIntent : String) (f : SortField) (d : SortDirection)
    (r : KeywordEntry)
    (h : sortedData data searchTerm filterIntent f d = [r]) :
    downloadCSV data searchTerm filterIntent f d =
      "Keyword,Type,Intent,Score,Importance" ++ "\n" ++
        ("\"" ++ r.keyword ++ "\",\"" ++ r.keywordType ++ "\",\"" ++
          r.searchIntent ++ "\"," ++ toString r.priorityScore ++ ",\"" ++
          r.importance ++ "\"") ∧
    downloadCSV data searchTerm filterIntent f d =
      csvContent (sortedData data searchTerm filterIntent f d) := by
  constructor
  · unfold downloadCSV
    rw [h]
    rfl
  · rfl

/-- Witness for claim C4: on the mixed list filtered to intent
"Informational" exactly one row is visible, and the export is the header
line plus that row's line. -/
theorem downloadCSV_single_row_witness :
    downloadCSV mixedEntries "" "Informational" SortField.priorityScore
        SortDirection.desc =
      "Keyword,Type,Intent,Score,Importance" ++ "\n" ++
        ("\"" ++ "what is crm" ++ "\",\"" ++ "Question" ++ "\",\"" ++
          "Informational" ++ "\"," ++ toString (40 : ℤ) ++ ",\"" ++
          "awareness" ++ "\"") ∧
    downloadCSV mixedEntries "" "Informational" SortField.priorityScore
        SortDirection.desc =
      csvContent (sortedData mixedEntries "" "Informational"
        SortField.priorityScore SortDirection.desc) :=
  downloadCSV_single_row mixedEntries "" "Informational"
    SortField.priorityScore SortDirection.desc
    ⟨"what is crm", "Question", "Informational", 40, "awareness"⟩
    (by decide)

/-- Auxiliary: switching the direction flips the sign of the comparator on
every field. -/
theorem cmpEntries_desc_eq_neg (f : SortField) (a b : KeywordEntry) :
    cmpEntries f SortDirection.desc a b =
      -(cmpEntries f SortDirection.asc a b) := by
  cases f <;> simp only [cmpEntries] <;> split_ifs <;> simp_all

/-- Auxiliary: on priorityScore, ascending order by the comparator is
order by score. -/
theorem entryLe_priority_asc (a b : KeywordEntry) :
    entryLe SortField.priorityScore SortDirection.asc a b ↔
      a.priorityScore ≤ b.priorityScore := by
  unfold entryLe
  simp [cmpEntries, sub_nonpos]

/-- Auxiliary: on priorityScore, descending order by the comparator is
reversed order by score. -/
theorem entryLe_priority_desc (a b : KeywordEntry) :
    entryLe SortField.priorityScore SortDirection.desc a b ↔
      b.priorityScore ≤ a.priorityScore := by
  unfold entryLe
  simp [cmpEntries, sub_nonpos]

instance : IsTotal KeywordEntry
    (entryLe SortField.priorityScore SortDirection.asc) :=
  ⟨fun a b => by
    rw [entryLe_priority_asc, entryLe_priority_asc]
    exact Int.le_total a.priorityScore b.priorityScore⟩

instance : IsTrans KeywordEntry
    (entryLe SortField.priorityScore SortDirection.asc) :=
  ⟨fun a b c hab hbc => by
    rw [entryLe_priority_asc] at hab hbc ⊢
    exact le_trans hab hbc⟩

instance : IsTotal KeywordEntry
    (entryLe SortField.priorityScore SortDirection.desc) :=
  ⟨fun a b => by
    rw [entryLe_priority_desc, entryLe_priority_desc]
    exact Int.le_total b.priorityScore a.priorityScore⟩

instance : IsTrans KeywordEntry
    (entryLe SortField.priorityScore SortDirection.desc) :=
  ⟨fun a b c hab hbc => by
    rw [entryLe_priority_desc] at hab hbc ⊢
    exact le_trans hbc hab⟩

/-- Auxiliary: on a list with pairwise distinct scores, the stable sort by
descending score is the reverse of the stable sort by ascending score. -/
theorem insertionSort_priority_reverse (fl : List KeywordEntry)
    (hflp : fl.Pairwise fun a b => a.priorityScore ≠ b.priorityScore) :
    List.insertionSort (entryLe SortField.priorityScore SortDirection.desc) fl =
      (List.insertionSort
        (entryLe SortField.priorityScore SortDirection.asc) fl).reverse := by
  set A := List.insertionSort
    (entryLe SortField.priorityScore SortDirection.asc) fl with hA
  set D := List.insertionSort
    (entryLe SortField.priorityScore SortDirection.desc) fl with hD
  have hpA : A.Perm fl := List.perm_insertionSort _ fl
  have hpD : D.Perm fl := List.perm_insertionSort _ fl
  have hsA : A.Pairwise (entryLe SortField.priorityScore SortDirection.asc) :=
    List.sorted_insertionSort _ fl
  have hsD : D.Pairwise (entryLe SortField.priorityScore SortDirection.desc) :=
    List.sorted_insertionSort _ fl
  have hneA : A.Pairwise (fun a b => a.priorityScore ≠ b.priorityScore) :=
    hflp.perm hpA.symm (fun h => h.symm)
  have hneD : D.Pairwise (fun a b => a.priorityScore ≠ b.priorityScore) :=
    hflp.perm hpD.symm (fun h => h.symm)
  have hltA : A.Pairwise (fun a b => a.priorityScore < b.priorityScore) :=
    (hsA.and hneA).imp
      (fun h => lt_of_le_of_ne ((entryLe_priority_asc _ _).mp h.1) h.2)
  have hltD : D.Pairwise (fun a b => b.priorityScore < a.priorityScore) :=
    (hsD.and hneD).imp
      (fun h => lt_of_le_of_ne ((entryLe_priority_desc _ _).mp h.1) h.2.symm)
  have hltDrev :
      D.reverse.Pairwise (fun a b => a.priorityScore < b.priorityScore) := by
    rw [List.pairwise_reverse]
    exact hltD
  haveI : IsAntisymm KeywordEntry
      (fun a b => a.priorityScore < b.priorityScore) :=
    ⟨fun a b h1 h2 => absurd h1 (not_lt.mpr h2.le)⟩
  have hperm : A.Perm D.reverse :=
    (hpA.trans hpD.symm).trans (List.reverse_perm D).symm
  have heq : A = D.reverse := List.eq_of_perm_of_sorted hperm hltA hltDrev
  rw [heq, List.reverse_reverse]

/-- Claim C3: the comparator compares the numeric priorityScore field
arithmetically and flips its sign with the direction, and on any dataset
with pairwise distinct priority scores sorting by priorityScore descending
yields exactly the reverse of sorting it ascending. -/
theorem sortedData_priority_desc_reverse (data : List KeywordEntry)
    (searchTerm filterIntent : String)
    (hd : data.Pairwise fun a b => a.priorityScore ≠ b.priorityScore) :
    (∀ f a b, cmpEntries f SortDirection.desc a b =
      -(cmpEntries f SortDirection.asc a b)) ∧
    (∀ a b, cmpEntries SortField.priorityScore SortDirection.asc a b =
      a.priorityScore - b.priorityScore) ∧
    sortedData data searchTerm filterIntent SortField.priorityScore
        SortDirection.desc =
      (sortedData data searchTerm filterIntent SortField.priorityScore
        SortDirection.asc).reverse := by
  refine ⟨cmpEntries_desc_eq_neg, fun a b => rfl, ?_⟩
  have hsub : (filteredData data searchTerm filterIntent).Sublist data :=
    List.filter_sublist data
  exact insertionSort_priority_reverse _ (List.Pairwise.sublist hsub hd)

/-- Witness for claim C3 at the mixed list (scores 80, 40, 70, pairwise
distinct) with no filtering. -/
theorem sortedData_priority_desc_reverse_witness :
    sortedData mixedEntries "" "All" SortField.priorityScore
        SortDirection.desc =
      (sortedData mixedEntries "" "All" SortField.priorityScore
        SortDirection.asc).reverse :=
  (sortedData_priority_desc_reverse mixedEntries "" "All" (by decide)).2.2

/-- Auxiliary: the descending-count sort of a distribution is a
permutation of it, is ordered by descending count, and (when non-empty)
starts with an element of maximal count. -/
theorem sortByValueDesc_spec (d : List NameValue) :
    (sortByValueDesc d).Perm d ∧
    (sortByValueDesc d).Pairwise byValueDesc ∧
    (d ≠ [] → ∃ x, (sortByValueDesc d).head? = some x ∧ x ∈ d ∧
      ∀ y ∈ d, y.value ≤ x.value) := by
  have hperm : (sortByValueDesc d).Perm d := List.perm_insertionSort _ d
  have hsorted : (sortByValueDesc d).Pairwise byValueDesc :=
    List.sorted_insertionSort _ d
  refine ⟨hperm, hsorted, fun hne => ?_⟩
  have hlen : sortByValueDesc d ≠ [] := by
    intro h0
    rw [h0] at hperm
    exact hne hperm.symm.eq_nil
  obtain ⟨x, t, hxt⟩ := List.exists_cons_of_ne_nil hlen
  refine ⟨x, by rw [hxt]; rfl, ?_, ?_⟩
  · exact hperm.mem_iff.mp (by rw [hxt]; exact List.mem_cons_self x t)
  · intro y hy
    have hy2 : y ∈ x :: t := by
      rw [← hxt]
      exact hperm.mem_iff.mpr hy
    rcases List.mem_cons.mp hy2 with rfl | hyt
    · exact le_refl _
    · rw [hxt] at hsorted
      exact List.rel_of_sorted_cons hsorted y hyt

/-- Claim C10: rendering the summary cards sorts both stats distributions
in place by descending count, so the Top Intent and Dominant Type cards
show a maximal-count category and the Dashboard receives the distributions
in descending-count order instead of the aggregator's first-seen insertion
order. -/
theorem renderSummary_sorts_in_place (st : GenerationStats) :
    ((renderSummary st).2.2.intentDistribution =
        sortByValueDesc st.intentDistribution ∧
      (renderSummary st).2.2.typeDistribution =
        sortByValueDesc st.typeDistribution) ∧
    ((renderSummary st).2.2.intentDistribution.Perm st.intentDistribution ∧
      (renderSummary st).2.2.intentDistribution.Pairwise byValueDesc) ∧
    ((renderSummary st).2.2.typeDistribution.Perm st.typeDistribution ∧
      (renderSummary st).2.2.typeDistribution.Pairwise byValueDesc) ∧
    (st.intentDistribution ≠ [] → ∃ x, x ∈ st.intentDistribution ∧
      (renderSummary st).1 = x.name ∧
      ∀ y ∈ st.intentDistribution, y.value ≤ x.value) ∧
    (st.typeDistribution ≠ [] → ∃ x, x ∈ st.typeDistribution ∧
      (renderSummary st).2.1 = x.name ∧
      ∀ y ∈ st.typeDistribution, y.value ≤ x.value) := by
  obtain ⟨hip, his, hitop⟩ := sortByValueDesc_spec st.intentDistribution
  obtain ⟨htp, hts, httop⟩ := sortByValueDesc_spec st.typeDistribution
  refine ⟨⟨rfl, rfl⟩, ⟨hip, his⟩, ⟨htp, hts⟩, fun hne => ?_, fun hne => ?_⟩
  · obtain ⟨x, hhead, hxd, hmax⟩ := hitop hne
    refine ⟨x, hxd, ?_, hmax⟩
    show ((sortByValueDesc st.intentDistribution).head?.map
      NameValue.name).getD "N/A" = x.name
    rw [hhead]
    rfl
  · obtain ⟨x, hhead, hxd, hmax⟩ := httop hne
    refine ⟨x, hxd, ?_, hmax⟩
    show ((sortByValueDesc st.typeDistribution).head?.map
      NameValue.name).getD "N/A" = x.name
    rw [hhead]
    rfl

/-- Witness for claim C10 at the aggregator output of the mixed list. -/
theorem renderSummary_sorts_in_place_witness :
    (∃ x, x ∈ mixedStats.intentDistribution ∧
      (renderSummary mixedStats).1 = x.name ∧
      ∀ y ∈ mixedStats.intentDistribution, y.value ≤ x.value) ∧
    (∃ x, x ∈ mixedStats.typeDistribution ∧
      (renderSummary mixedStats).2.1 = x.name ∧
      ∀ y ∈ mixedStats.typeDistribution, y.value ≤ x.value) :=
  ⟨(renderSummary_sorts_in_place mixedStats).2.2.2.1 (by decide),
   (renderSummary_sorts_in_place mixedStats).2.2.2.2 (by decide)⟩
